import Mathlib

/-!
# Chevereto integration handlers (`internal/api/chevereto.go`)

A shallow embedding of the four route handlers registered by
`RegisterCheveretoRoutes`, together with the properties of the settings
validator, the connectivity probe and the upload relay.

Conventions of the embedding:

* a Go `string` is a Lean `String` (a sequence of Unicode code points; every
  string the handlers look at comes out of a JSON or form decoder);
* the collaborators the handlers call into (the per-user config service, the
  HTTP client, the request binder) are parameters: their answers are inputs of
  a handler, the calls a handler makes on them are recorded in its trace;
* a handler returns the value it hands back to the router (`Response`) and the
  trace of outbound effects (`Effect`) in the order they happened.
-/

namespace Chevereto

/-! ## Go standard library: `unicode.IsSpace`, `strings.TrimSpace`, `strings.TrimRight` -/

/-- Go `unicode.IsSpace`: the Latin-1 cases are listed explicitly, every other
code point is looked up in the `White_Space` range table. -/
def IsSpace (r : Char) : Bool :=
  let n := r.toNat
  if n ≤ 0xFF then
    n == 0x09 || n == 0x0A || n == 0x0B || n == 0x0C || n == 0x0D || n == 0x20
      || n == 0x85 || n == 0xA0
  else
    n == 0x1680 || (0x2000 ≤ n && n ≤ 0x200A) || n == 0x2028 || n == 0x2029
      || n == 0x202F || n == 0x205F || n == 0x3000

/-- Go `strings.TrimSpace`: all leading and trailing white space removed. -/
def TrimSpace (s : String) : String :=
  ⟨List.rdropWhile IsSpace (List.dropWhile IsSpace s.data)⟩

/-- Go `strings.TrimRight`: all trailing code points contained in `cutset`
removed. -/
def TrimRight (s cutset : String) : String :=
  ⟨List.rdropWhile (fun c => cutset.data.contains c) s.data⟩

/-- The expression `strings.TrimRight(strings.TrimSpace(body.Domain), "/")`
of the save handler (line 75) and of the test handler (line 112). -/
def normalizeDomain (domain : String) : String :=
  TrimRight (TrimSpace domain) "/"

/-- Go `strings.HasSuffix(s, "/")`-style test on the last code point. -/
def endsWith (s : String) (c : Char) : Bool :=
  s.data.getLast? == some c

/-- True when the last code point of `s` is white space. -/
def endsWithSpace (s : String) : Bool :=
  match s.data.getLast? with
  | some c => IsSpace c
  | none => false

/-- Go `strings.Contains`. -/
def Contains (s substr : String) : Prop :=
  substr.data <:+: s.data

/-! ## Go values of type `any` -/

/-- The dynamic values that occur behind Go `any` in the handlers: what
`encoding/json` decodes into an `any`, which is also what the handlers put
into their own `map[string]any` literals. A `map[string]any` is kept as an
association list, read with `mapIndex`. -/
inductive Any where
  | nil : Any
  | bool (b : Bool) : Any
  | number (literal : String) : Any
  | str (s : String) : Any
  | arr (items : List Any) : Any
  | obj (fields : List (String × Any)) : Any

/-- Go `map[string]any`. -/
abbrev GoMap := List (String × Any)

/-- Go `m[key]` on a `map[string]any`: the zero value `nil` when the key is
absent (also on a nil map). -/
def mapIndex (m : GoMap) (key : String) : Any :=
  match m.lookup key with
  | some v => v
  | none => Any.nil

/-- Go `v.(map[string]any)` in its two-result form. -/
def asMap : Any → Option GoMap
  | Any.obj fields => some fields
  | _ => none

/-- Go `v.(string)` in its two-result form. -/
def asString : Any → Option String
  | Any.str s => some s
  | _ => none

/-- Go `json.Unmarshal(body, &m)` with `m` a `map[string]any`, on a body given
by what the JSON decoder makes of it (`none`: not valid JSON). A JSON object
fills the map, JSON `null` leaves the nil map without an error, any other JSON
value is a type error. -/
def unmarshalMap : Option Any → Except String GoMap
  | none => Except.error "invalid character"
  | some (Any.obj fields) => Except.ok fields
  | some Any.nil => Except.ok []
  | some _ => Except.error "json: cannot unmarshal value into Go value of type map[string]interface"

/-! ## Collaborators -/

/-- The authenticated record attached to the request. -/
structure Record where
  Id : String

/-- The per-user config service (`internal/config`), as the handlers use it:
each getter returns its value and an optional error, `SetBatch` an optional
error. -/
structure ConfigService where
  GetBool : String → String → Bool × Option String
  GetString : String → String → String × Option String
  SetBatch : String → GoMap → Option String

/-- One part of a multipart body written through `mime/multipart.Writer`. -/
inductive Part where
  | file (fieldname filename : String) (content : List UInt8) : Part
  | field (fieldname value : String) : Part

/-- An outbound `http.Request`: method, URL, headers in the order they were
set, and the multipart body (empty for a body-less request). -/
structure Request where
  Method : String
  URL : String
  Header : List (String × String)
  Body : List Part

/-- The remote `http.Response`: its status code and its body, which is either a
read error or the bytes as seen by the JSON decoder. -/
structure RemoteResponse where
  StatusCode : Nat
  Body : Except String (Option Any)

/-- The `net/http` client: `NewRequest` reports an error for a method and URL
it rejects, `Do` takes the client timeout in seconds and the request. -/
structure HttpClient where
  NewRequest : String → String → Option String
  Do : Nat → Request → Except String RemoteResponse

/-- What a handler returns to the router: a JSON response (`c.JSON`) or an API
error built by `apis.NewBadRequestError` / `apis.NewUnauthorizedError`, kept
with its `Code` and its `Message` fields. -/
inductive Response where
  | json (status : Nat) (body : GoMap) : Response
  | apiError (status : Nat) (message : String) : Response

/-- An outbound effect of a handler. -/
inductive Effect where
  | setBatch (userId : String) (settings : GoMap) : Effect
  | newRequest (method url : String) : Effect
  | send (timeout : Nat) (req : Request) : Effect

def StatusOK : Nat := 200
def StatusBadRequest : Nat := 400
def StatusUnauthorized : Nat := 401
def StatusForbidden : Nat := 403
def StatusNotFound : Nat := 404

/-- Go `unicode.ToUpper` on the ASCII range, where it maps `a`..`z` to `A`..`Z`
and leaves every other rune alone. Outside ASCII the Unicode case tables are
not embedded and the rune is returned unchanged: every message the handlers
build starts with an ASCII capital letter. -/
def ToUpper (r : Char) : Char :=
  if 'a'.toNat ≤ r.toNat ∧ r.toNat ≤ 'z'.toNat then Char.ofNat (r.toNat - 32) else r

/-- PocketBase `inflector.UcFirst`: the first rune in upper case. -/
def UcFirst (str : String) : String :=
  match str.data with
  | [] => ""
  | c :: rest => ⟨ToUpper c :: rest⟩

/-- PocketBase `inflector.Sentenize`: the string trimmed, its first rune in
upper case, and a `.` appended unless it ends in `.`, `?` or `!`. -/
def Sentenize (str : String) : String :=
  let str := TrimSpace str
  if str == "" then ""
  else
    let str := UcFirst str
    if endsWith str '.' || endsWith str '?' || endsWith str '!' then str
    else str ++ "."

/-- PocketBase `apis.NewApiError`: the message is stored as a trimmed sentence. -/
def NewApiError (status : Nat) (message : String) : Response :=
  Response.apiError status (TrimSpace (Sentenize message))

/-- PocketBase `apis.NewBadRequestError`, without its data argument. -/
def NewBadRequestError (message : String) : Response :=
  if message == "" then
    NewApiError StatusBadRequest "Something went wrong while processing your request."
  else NewApiError StatusBadRequest message

/-- PocketBase `apis.NewUnauthorizedError`, without its data argument. -/
def NewUnauthorizedError (message : String) : Response :=
  if message == "" then
    NewApiError StatusUnauthorized "Missing or invalid authentication token."
  else NewApiError StatusUnauthorized message

/-- Go `strings.TrimRightFunc(s, unicode.IsSpace)`: trailing white space
removed. -/
def TrimRightSpace (s : String) : String :=
  ⟨List.rdropWhile IsSpace s.data⟩

/-! ## `PUT /api/chevereto/settings` -/

/-- The request body of the save handler. -/
structure SettingsBody where
  Enabled : Bool
  Domain : String
  APIKey : String
  AlbumID : String

/-- The settings map the save handler builds (lines 75 to 82): the domain is
normalised, the other three fields are taken from the body as they are. -/
def settingsMap (body : SettingsBody) : GoMap :=
  [("chevereto.enabled", Any.bool body.Enabled),
   ("chevereto.domain", Any.str (normalizeDomain body.Domain)),
   ("chevereto.api_key", Any.str body.APIKey),
   ("chevereto.album_id", Any.str body.AlbumID)]

/-- The save handler. `bind` is the outcome of `c.Bind(&body)`. -/
def putSettings (configService : ConfigService) (authRecord : Option Record)
    (bind : Except String SettingsBody) : Response × List Effect :=
  match authRecord with
  | none => (NewUnauthorizedError "The request requires valid authorization token.", [])
  | some rec =>
    let userId := rec.Id
    match bind with
    | Except.error _ => (NewBadRequestError "Invalid request body", [])
    | Except.ok body =>
      if body.Enabled &&
          (TrimSpace body.Domain == "" || TrimSpace body.APIKey == "") then
        (NewBadRequestError "Domain and API Key are required to enable Chevereto", [])
      else
        let settings := settingsMap body
        match configService.SetBatch userId settings with
        | some _ =>
          (NewBadRequestError "Failed to save Chevereto settings",
            [Effect.setBatch userId settings])
        | none =>
          (Response.json StatusOK [("success", Any.bool true)],
            [Effect.setBatch userId settings])

/-- The string stored under `key` in a settings map (`none` when the key is
absent or holds no string). -/
def storedString (settings : GoMap) (key : String) : Option String :=
  asString (mapIndex settings key)

/-- The boolean stored under `key` in a settings map. -/
def storedBool (settings : GoMap) (key : String) : Option Bool :=
  match mapIndex settings key with
  | Any.bool b => some b
  | _ => none

/-! ## `POST /api/chevereto/test` -/

/-- The request body of the test handler. -/
structure TestBody where
  Domain : String
  APIKey : String

/-- The body of the `c.JSON(http.StatusOK, ...)` answers of the test handler. -/
def testResult (success : Bool) (message : String) : Response :=
  Response.json StatusOK [("success", Any.bool success), ("message", Any.str message)]

/-- Lines 139 to 158: the answer of the test handler once a response with the
given status code has been received. -/
def classifyStatus (statusCode : Nat) : Response :=
  if statusCode == StatusNotFound then
    testResult false "Chevereto API endpoint not found. Please check the domain."
  else if statusCode == StatusUnauthorized || statusCode == StatusForbidden then
    testResult false "Authentication failed. Please check your API key."
  else
    testResult true "Connection successful"

/-- Lines 118 to 127: the probe request, a body-less `GET` carrying the API
key as it came in the body. -/
def probeRequest (testURL apiKey : String) : Request :=
  { Method := "GET", URL := testURL, Header := [("X-API-Key", apiKey)], Body := [] }

/-- The test handler. The probe is sent with a ten second timeout. -/
def postTest (client : HttpClient) (authRecord : Option Record)
    (bind : Except String TestBody) : Response × List Effect :=
  match authRecord with
  | none => (NewUnauthorizedError "The request requires valid authorization token.", [])
  | some _ =>
    match bind with
    | Except.error _ => (NewBadRequestError "Invalid request body", [])
    | Except.ok body =>
      if TrimSpace body.Domain == "" || TrimSpace body.APIKey == "" then
        (NewBadRequestError "Domain and API Key are required", [])
      else
        let domain := normalizeDomain body.Domain
        let testURL := domain ++ "/api/1/upload"
        match client.NewRequest "GET" testURL with
        | some err =>
          (testResult false ("Invalid domain URL: " ++ err), [Effect.newRequest "GET" testURL])
        | none =>
          let req := probeRequest testURL body.APIKey
          let trace := [Effect.newRequest "GET" testURL, Effect.send 10 req]
          match client.Do 10 req with
          | Except.error err => (testResult false ("Connection failed: " ++ err), trace)
          | Except.ok resp => (classifyStatus resp.StatusCode, trace)

/-! ## `POST /api/chevereto/upload` -/

/-- The `multipart.FileHeader` of the inbound file. -/
structure FileHeader where
  Filename : String

/-- The inbound file returned by `FormFile`: its header and the outcome of
streaming it with `io.Copy` (a read error or all of its bytes). -/
structure UploadedFile where
  header : FileHeader
  read : Except String (List UInt8)

/-- Lines 195 to 207: the parts written to the multipart writer, in order. -/
def buildParts (filename : String) (content : List UInt8) (albumId : String) : List Part :=
  [Part.file "source" filename content]
    ++ (if albumId != "" then [Part.field "album_id" albumId] else [])
    ++ [Part.field "title" filename]

/-- Lines 231 to 239: the answer for a response whose status is not 200. -/
def errorResponse (statusCode : Nat) (doc : Option Any) : Response :=
  let generic := NewBadRequestError ("Chevereto returned status " ++ Nat.repr statusCode)
  match unmarshalMap doc with
  | Except.error _ => generic
  | Except.ok errResp =>
    match asMap (mapIndex errResp "error") with
    | none => generic
    | some errObj =>
      match asString (mapIndex errObj "message") with
      | none => generic
      | some msg => NewBadRequestError ("Chevereto error: " ++ msg)

/-- Lines 242 to 259: the answer for a response whose status is 200. -/
def successResponse (doc : Option Any) : Response :=
  match unmarshalMap doc with
  | Except.error _ => NewBadRequestError "Failed to parse Chevereto response"
  | Except.ok result =>
    match asMap (mapIndex result "image") with
    | none => NewBadRequestError "No image data in Chevereto response"
    | some imageObj =>
      match asString (mapIndex imageObj "url") with
      | none => NewBadRequestError "No image URL in Chevereto response"
      | some imageURL =>
        if imageURL == "" then NewBadRequestError "No image URL in Chevereto response"
        else Response.json StatusOK [("url", Any.str imageURL)]

/-- Lines 225 to 259: the answer of the upload handler once the remote response
has been received. -/
def relayResponse (resp : RemoteResponse) : Response :=
  match resp.Body with
  | Except.error _ => NewBadRequestError "Failed to read Chevereto response"
  | Except.ok doc =>
    if resp.StatusCode != StatusOK then errorResponse resp.StatusCode doc
    else successResponse doc

/-- Lines 210 to 216: the upload request, a `POST` of the multipart body with
the stored API key and the content type of the multipart writer. -/
def uploadRequest (uploadURL apiKey boundary : String) (parts : List Part) : Request :=
  { Method := "POST", URL := uploadURL,
    Header := [("X-API-Key", apiKey),
      ("Content-Type", "multipart/form-data; boundary=" ++ boundary)],
    Body := parts }

/-- The upload handler. `formFile` is `c.Request().FormFile`, `boundary` the
boundary the multipart writer drew. Writing into the in-memory buffer does not
fail, so `CreateFormFile` has no error branch here; the upload is sent with a
sixty second timeout. -/
def postUpload (configService : ConfigService) (client : HttpClient)
    (authRecord : Option Record) (formFile : String → Except String UploadedFile)
    (boundary : String) : Response × List Effect :=
  match authRecord with
  | none => (NewUnauthorizedError "The request requires valid authorization token.", [])
  | some rec =>
    let userId := rec.Id
    let enabled := (configService.GetBool userId "chevereto.enabled").1
    if !enabled then (NewBadRequestError "Chevereto is not enabled", [])
    else
      let domain := (configService.GetString userId "chevereto.domain").1
      let apiKey := (configService.GetString userId "chevereto.api_key").1
      let albumId := (configService.GetString userId "chevereto.album_id").1
      if domain == "" || apiKey == "" then
        (NewBadRequestError "Chevereto domain and API key are not configured", [])
      else
        match formFile "source" with
        | Except.error _ => (NewBadRequestError "No file provided", [])
        | Except.ok file =>
          match file.read with
          | Except.error _ => (NewBadRequestError "Failed to read file", [])
          | Except.ok content =>
            let parts := buildParts file.header.Filename content albumId
            let uploadURL := domain ++ "/api/1/upload"
            match client.NewRequest "POST" uploadURL with
            | some _ =>
              (NewBadRequestError "Failed to create request",
                [Effect.newRequest "POST" uploadURL])
            | none =>
              let req := uploadRequest uploadURL apiKey boundary parts
              let trace := [Effect.newRequest "POST" uploadURL, Effect.send 60 req]
              match client.Do 60 req with
              | Except.error err =>
                (NewBadRequestError ("Upload to Chevereto failed: " ++ err), trace)
              | Except.ok resp => (relayResponse resp, trace)

/-- The requests a run of a handler handed to `client.Do`. -/
def sent : List Effect → List Request
  | [] => []
  | Effect.send _ req :: rest => req :: sent rest
  | _ :: rest => sent rest

/-- True for the success answer of the upload handler, `c.JSON(200, ...)`. -/
def isSuccess : Response → Bool
  | Response.json _ _ => true
  | Response.apiError _ _ => false

/-! ## Fixtures used in the examples -/

/-- A config service holding one settings record, whose writes succeed. -/
def storeOf (enabled : Bool) (domain apiKey albumId : String) : ConfigService where
  GetBool := fun _ key => if key == "chevereto.enabled" then (enabled, none) else (false, some "not found")
  GetString := fun _ key =>
    if key == "chevereto.domain" then (domain, none)
    else if key == "chevereto.api_key" then (apiKey, none)
    else if key == "chevereto.album_id" then (albumId, none)
    else ("", some "not found")
  SetBatch := fun _ _ => none

/-- A client whose requests are well formed and always answered by `resp`. -/
def clientAnswering (resp : RemoteResponse) : HttpClient where
  NewRequest := fun _ _ => none
  Do := fun _ _ => Except.ok resp

/-- A client whose requests are well formed and never get through. -/
def clientRefused : HttpClient where
  NewRequest := fun _ _ => none
  Do := fun _ _ => Except.error "connection refused"

/-- An inbound form with one ten-byte file `x.png` under `source`. -/
def formWithFile : String → Except String UploadedFile := fun name =>
  if name == "source" then
    Except.ok { header := { Filename := "x.png" }, read := Except.ok [0, 1, 2, 3, 4, 5, 6, 7, 8, 9] }
  else Except.error "http: no such file"

/-- An inbound form without any file. -/
def formWithoutFile : String → Except String UploadedFile := fun _ =>
  Except.error "http: no such file"

/-- The user of the examples. -/
def alice : Record := { Id := "u1" }

/-! ## Lemmas on trimming -/

theorem dropWhile_fixed_of_isPrefix {α : Type} (p : α → Bool) {x t : List α}
    (hx : x <+: t) (ht : List.dropWhile p t = t) : List.dropWhile p x = x := by
  cases x with
  | nil => rfl
  | cons a x' =>
    obtain ⟨r, hr⟩ := hx
    subst hr
    by_cases hpa : p a = true
    · exfalso
      have hlen := congrArg List.length ht
      have hle := (List.dropWhile_suffix p (l := x' ++ r)).length_le
      simp only [List.cons_append, List.dropWhile, hpa, List.length_cons,
        List.append_eq] at hlen
      omega
    · simp [List.dropWhile, hpa]

theorem rdropWhile_fixed_iff_getLast? {α : Type} (p : α → Bool) (x : List α) :
    List.rdropWhile p x = x ↔ ∀ c, x.getLast? = some c → p c = false := by
  rw [List.rdropWhile_eq_self_iff]
  constructor
  · intro h c hc
    have hne : x ≠ [] := by rintro rfl; simp at hc
    have := h hne
    rw [List.getLast?_eq_getLast _ hne] at hc
    simp only [Option.some.injEq] at hc
    rw [hc] at this
    simpa using this
  · intro h hne
    have := h _ (List.getLast?_eq_getLast _ hne)
    simp [this]

theorem getLast?_rdropWhile {α : Type} (p : α → Bool) (l : List α) (c : α)
    (h : (List.rdropWhile p l).getLast? = some c) : p c = false :=
  (rdropWhile_fixed_iff_getLast? p (List.rdropWhile p l)).mp
    (List.rdropWhile_idempotent p l) c h

theorem TrimRight_slash_not_endsWith (s : String) :
    endsWith (TrimRight s "/") '/' = false := by
  unfold endsWith TrimRight
  cases h : (List.rdropWhile (fun c => "/".data.contains c) s.data).getLast? with
  | none => rfl
  | some c =>
    have hc := getLast?_rdropWhile _ _ _ h
    have : c ≠ '/' := by
      rintro rfl
      simp at hc
    simp [this]

theorem normalizeDomain_data (d : String) :
    (normalizeDomain d).data =
      List.rdropWhile (fun c => "/".data.contains c)
        (List.rdropWhile IsSpace (List.dropWhile IsSpace d.data)) := rfl

theorem normalizeDomain_twice_data (d : String) :
    (normalizeDomain (normalizeDomain d)).data =
      List.rdropWhile (fun c => "/".data.contains c)
        (List.rdropWhile IsSpace (normalizeDomain d).data) := by
  have hpre : (normalizeDomain d).data <+: List.dropWhile IsSpace d.data := by
    rw [normalizeDomain_data]
    exact List.IsPrefix.trans ( List.rdropWhile_prefix _ _) ( List.rdropWhile_prefix _ _)
  have hfix := dropWhile_fixed_of_isPrefix IsSpace hpre (List.dropWhile_idempotent _ _)
  conv_lhs => rw [normalizeDomain_data, hfix]

theorem endsWithSpace_eq_false_iff (s : String) :
    endsWithSpace s = false ↔ List.rdropWhile IsSpace s.data = s.data := by
  rw [rdropWhile_fixed_iff_getLast?]
  unfold endsWithSpace
  cases s.data.getLast? <;> simp

/-! ## Lemmas on API error messages -/

theorem TrimSpace_fixed (s : String) (c : Char) (rest : List Char) (hdata : s.data = c :: rest)
    (hc : IsSpace c = false) (hlast : ∀ x, s.data.getLast? = some x → IsSpace x = false) :
    TrimSpace s = s := by
  apply String.ext
  show List.rdropWhile IsSpace (List.dropWhile IsSpace s.data) = s.data
  have hdrop : List.dropWhile IsSpace s.data = s.data := by
    rw [hdata]
    simp [List.dropWhile, hc]
  rw [hdrop]
  exact (rdropWhile_fixed_iff_getLast? IsSpace s.data).mpr hlast

theorem TrimRightSpace_data_cons (c : Char) (rest : List Char) (hc : IsSpace c = false) :
    ∃ rest', (TrimRightSpace ⟨c :: rest⟩).data = c :: rest' := by
  show ∃ rest', List.rdropWhile IsSpace (c :: rest) = c :: rest'
  have hpre := List.rdropWhile_prefix IsSpace (c :: rest)
  cases hr : List.rdropWhile IsSpace (c :: rest) with
  | nil =>
    rw [List.rdropWhile_eq_nil_iff] at hr
    have := hr c (List.mem_cons_self c rest)
    rw [hc] at this
    exact absurd this (by decide)
  | cons a rest' =>
    rw [hr] at hpre
    obtain ⟨r, hr'⟩ := hpre
    simp only [List.cons_append, List.cons.injEq] at hr'
    exact ⟨rest', by rw [hr'.1]⟩

theorem NewBadRequestError_capital (c : Char) (rest : List Char) (hc : IsSpace c = false)
    (hu : ToUpper c = c) :
    NewBadRequestError ⟨c :: rest⟩ = Response.apiError 400
      (if endsWith (TrimRightSpace ⟨c :: rest⟩) '.' || endsWith (TrimRightSpace ⟨c :: rest⟩) '?'
          || endsWith (TrimRightSpace ⟨c :: rest⟩) '!'
        then TrimRightSpace ⟨c :: rest⟩ else TrimRightSpace ⟨c :: rest⟩ ++ ".") := by
  obtain ⟨rest', hdata⟩ := TrimRightSpace_data_cons c rest hc
  have hne : ((⟨c :: rest⟩ : String) == "") = false := by
    rw [beq_eq_false_iff_ne]
    intro h
    have := congrArg String.data h
    simp at this
  have htrim : TrimSpace ⟨c :: rest⟩ = TrimRightSpace ⟨c :: rest⟩ := by
    apply String.ext
    show List.rdropWhile IsSpace (List.dropWhile IsSpace (c :: rest))
      = List.rdropWhile IsSpace (c :: rest)
    simp [List.dropWhile, hc]
  have hne' : (TrimRightSpace ⟨c :: rest⟩ == "") = false := by
    rw [beq_eq_false_iff_ne]
    intro h
    have := congrArg String.data h
    rw [hdata] at this
    simp at this
  have huc : UcFirst (TrimRightSpace ⟨c :: rest⟩) = TrimRightSpace ⟨c :: rest⟩ := by
    apply String.ext
    unfold UcFirst
    rw [hdata]
    simp only [hu]
  have hlast : ∀ x, (TrimRightSpace ⟨c :: rest⟩).data.getLast? = some x → IsSpace x = false :=
    fun x hx => getLast?_rdropWhile IsSpace (c :: rest) x hx
  unfold NewBadRequestError NewApiError Sentenize
  simp only [hne, htrim, hne', huc, Bool.false_eq_true, if_false]
  congr 1
  split
  · exact TrimSpace_fixed _ c rest' hdata hc hlast
  · refine TrimSpace_fixed _ c (rest' ++ ['.']) ?_ hc ?_
    · simp [String.data_append, hdata]
    · intro x hx
      simp only [String.data_append, hdata] at hx
      have hx' : x = '.' := by
        rw [List.getLast?_concat] at hx
        exact (Option.some.inj hx).symm
      subst hx'
      decide

theorem NewBadRequestError_isError (message : String) :
    ∃ m, NewBadRequestError message = Response.apiError 400 m := by
  unfold NewBadRequestError NewApiError
  split <;> exact ⟨_, rfl⟩

theorem isInfix_rdropWhile_append {α : Type} (p : α → Bool) (a b : List α) :
    List.rdropWhile p b <:+: List.rdropWhile p (a ++ b) := by
  induction b using List.reverseRecOn with
  | nil => exact List.nil_infix
  | append_singleton b x ih =>
    rw [← List.append_assoc, List.rdropWhile_concat, List.rdropWhile_concat]
    split
    · exact ih
    · rw [List.append_assoc]
      exact List.infix_append' a (b ++ [x]) [] |>.trans (by simp)

theorem IsSpace_toDigitsCore (fuel n : Nat) (ds : List Char)
    (h : ∀ c ∈ ds, IsSpace c = false) :
    ∀ c ∈ Nat.toDigitsCore 10 fuel n ds, IsSpace c = false := by
  induction fuel generalizing n ds with
  | zero => simpa [Nat.toDigitsCore] using h
  | succ fuel ih =>
    have hdigit : IsSpace (Nat.digitChar (n % 10)) = false := by
      have hall : ∀ m < 10, IsSpace (Nat.digitChar m) = false := by decide
      exact hall _ (Nat.mod_lt _ (by decide))
    have hcons : ∀ c ∈ Nat.digitChar (n % 10) :: ds, IsSpace c = false := by
      intro c hc
      rcases List.mem_cons.mp hc with rfl | hc
      · exact hdigit
      · exact h c hc
    unfold Nat.toDigitsCore
    simp only
    split
    · exact hcons
    · exact ih _ _ hcons

theorem toDigitsCore_ne_nil (fuel n : Nat) (ds : List Char) (h : ds ≠ []) :
    Nat.toDigitsCore 10 fuel n ds ≠ [] := by
  induction fuel generalizing n ds with
  | zero => simpa [Nat.toDigitsCore] using h
  | succ fuel ih =>
    unfold Nat.toDigitsCore
    simp only
    split
    · simp
    · exact ih _ _ (by simp)

theorem repr_data (n : Nat) : (Nat.repr n).data = Nat.toDigitsCore 10 (n + 1) n [] := rfl

theorem repr_not_space (n : Nat) : ∀ c ∈ (Nat.repr n).data, IsSpace c = false := by
  rw [repr_data]
  exact IsSpace_toDigitsCore _ _ _ (by simp)

theorem repr_ne_nil (n : Nat) : (Nat.repr n).data ≠ [] := by
  rw [repr_data]
  unfold Nat.toDigitsCore
  simp only
  split
  · simp
  · exact toDigitsCore_ne_nil _ _ _ (by simp)

/-! ## Lemmas on the handlers -/

theorem putSettings_run (configService : ConfigService) (rec : Record) (body : SettingsBody)
    (hvalid : (body.Enabled && (TrimSpace body.Domain == "" || TrimSpace body.APIKey == ""))
      = false) :
    (putSettings configService (some rec) (Except.ok body)).2
        = [Effect.setBatch rec.Id (settingsMap body)] ∧
      (configService.SetBatch rec.Id (settingsMap body) = none →
        (putSettings configService (some rec) (Except.ok body)).1
          = Response.json StatusOK [("success", Any.bool true)]) := by
  unfold putSettings
  simp only [hvalid]
  cases hs : configService.SetBatch rec.Id (settingsMap body) <;> simp

theorem putSettings_accepted (configService : ConfigService) (rec : Record)
    (body : SettingsBody)
    (hacc : (putSettings configService (some rec) (Except.ok body)).1
      = Response.json StatusOK [("success", Any.bool true)]) :
    (body.Enabled && (TrimSpace body.Domain == "" || TrimSpace body.APIKey == "")) = false := by
  cases hvalid : (body.Enabled && (TrimSpace body.Domain == "" || TrimSpace body.APIKey == ""))
  · rfl
  · unfold putSettings at hacc
    simp only [hvalid, if_true] at hacc
    obtain ⟨m, hm⟩ := NewBadRequestError_isError
      "Domain and API Key are required to enable Chevereto"
    rw [hm] at hacc
    cases hacc

theorem postTest_of_sent (client : HttpClient) (authRecord : Option Record)
    (bind : Except String TestBody) (req : Request)
    (hsent : sent (postTest client authRecord bind).2 = [req]) :
    (∀ resp, client.Do 10 req = Except.ok resp →
      (postTest client authRecord bind).1 = classifyStatus resp.StatusCode) ∧
    (∀ err, client.Do 10 req = Except.error err →
      (postTest client authRecord bind).1 = testResult false ("Connection failed: " ++ err)) := by
  unfold postTest at hsent ⊢
  cases authRecord with
  | none => simp [sent] at hsent
  | some rec =>
    cases bind with
    | error e => simp [sent] at hsent
    | ok body =>
      simp only at hsent ⊢
      split at hsent
      · simp [sent] at hsent
      · rename_i hvalid
        rw [if_neg hvalid]
        cases hn : client.NewRequest "GET" (normalizeDomain body.Domain ++ "/api/1/upload") with
        | some e => rw [hn] at hsent; simp [sent] at hsent
        | none =>
          rw [hn] at hsent
          simp only at hsent ⊢
          generalize probeRequest (normalizeDomain body.Domain ++ "/api/1/upload") body.APIKey = q
            at hsent ⊢
          have hq : q = req := by
            cases hd : client.Do 10 q with
            | error e => rw [hd] at hsent; simpa [sent] using hsent
            | ok r => rw [hd] at hsent; simpa [sent] using hsent
          subst hq
          constructor
          · intro resp hresp
            rw [hresp]
          · intro err herr
            rw [herr]

theorem postUpload_of_sent (configService : ConfigService) (client : HttpClient)
    (authRecord : Option Record) (formFile : String → Except String UploadedFile)
    (boundary : String) (req : Request)
    (hsent : sent (postUpload configService client authRecord formFile boundary).2 = [req]) :
    (∀ resp, client.Do 60 req = Except.ok resp →
      (postUpload configService client authRecord formFile boundary).1 = relayResponse resp) ∧
    (∀ err, client.Do 60 req = Except.error err →
      (postUpload configService client authRecord formFile boundary).1 =
        NewBadRequestError ("Upload to Chevereto failed: " ++ err)) := by
  unfold postUpload at hsent ⊢
  cases authRecord with
  | none => simp [sent] at hsent
  | some rec =>
    simp only at hsent ⊢
    split at hsent
    · simp [sent] at hsent
    · rename_i hen
      rw [if_neg hen]
      split at hsent
      · simp [sent] at hsent
      · rename_i hcfg
        rw [if_neg hcfg]
        cases hf : formFile "source" with
        | error e => rw [hf] at hsent; simp [sent] at hsent
        | ok file =>
          rw [hf] at hsent
          simp only at hsent ⊢
          cases hr : file.read with
          | error e => rw [hr] at hsent; simp [sent] at hsent
          | ok content =>
            rw [hr] at hsent
            simp only at hsent ⊢
            cases hn : client.NewRequest "POST"
                ((configService.GetString rec.Id "chevereto.domain").1 ++ "/api/1/upload") with
            | some e => rw [hn] at hsent; simp [sent] at hsent
            | none =>
              rw [hn] at hsent
              simp only at hsent ⊢
              generalize uploadRequest _ _ _ _ = q at hsent ⊢
              have hq : q = req := by
                cases hd : client.Do 60 q with
                | error e => rw [hd] at hsent; simpa [sent] using hsent
                | ok r => rw [hd] at hsent; simpa [sent] using hsent
              subst hq
              constructor
              · intro resp hresp
                rw [hresp]
              · intro err herr
                rw [herr]

theorem errorResponse_cases (statusCode : Nat) (doc : Option Any) :
    errorResponse statusCode doc
        = NewBadRequestError ("Chevereto returned status " ++ Nat.repr statusCode) ∨
      ∃ fields errObj msg, doc = some (Any.obj fields) ∧
        mapIndex fields "error" = Any.obj errObj ∧ mapIndex errObj "message" = Any.str msg ∧
        errorResponse statusCode doc = NewBadRequestError ("Chevereto error: " ++ msg) := by
  cases doc with
  | none => left; rfl
  | some v =>
    cases v with
    | obj fields =>
      cases he : mapIndex fields "error" with
      | obj errObj =>
        cases hm : mapIndex errObj "message" with
        | str msg =>
          right
          exact ⟨fields, errObj, msg, rfl, he, hm, by
            simp [errorResponse, unmarshalMap, he, hm, asMap, asString]⟩
        | _ => left; simp [errorResponse, unmarshalMap, he, hm, asMap, asString]
      | _ => left; simp [errorResponse, unmarshalMap, he, asMap]
    | nil => left; simp [errorResponse, unmarshalMap, mapIndex, asMap]
    | _ => left; simp [errorResponse, unmarshalMap]

theorem postUpload_run (configService : ConfigService) (client : HttpClient) (rec : Record)
    (formFile : String → Except String UploadedFile) (boundary : String)
    (file : UploadedFile) (content : List UInt8)
    (henabled : (configService.GetBool rec.Id "chevereto.enabled").1 = true)
    (hdomain : (configService.GetString rec.Id "chevereto.domain").1 ≠ "")
    (hkey : (configService.GetString rec.Id "chevereto.api_key").1 ≠ "")
    (hfile : formFile "source" = Except.ok file)
    (hread : file.read = Except.ok content)
    (hnew : client.NewRequest "POST"
      ((configService.GetString rec.Id "chevereto.domain").1 ++ "/api/1/upload") = none) :
    (postUpload configService client (some rec) formFile boundary).2 =
      [Effect.newRequest "POST"
          ((configService.GetString rec.Id "chevereto.domain").1 ++ "/api/1/upload"),
        Effect.send 60 (uploadRequest
          ((configService.GetString rec.Id "chevereto.domain").1 ++ "/api/1/upload")
          (configService.GetString rec.Id "chevereto.api_key").1 boundary
          (buildParts file.header.Filename content
            (configService.GetString rec.Id "chevereto.album_id").1))] := by
  unfold postUpload
  simp only [henabled, hfile, hread, hnew]
  have hcfg : ((configService.GetString rec.Id "chevereto.domain").1 == "" ||
      (configService.GetString rec.Id "chevereto.api_key").1 == "") = false := by
    simp [hdomain, hkey]
  simp only [hcfg]
  cases client.Do 60 _ <;> rfl

/-! ## The settings validator -/

/-- C1: in the save handler, for every payload with `enabled = true`, the save
is rejected with a bad-request error (and nothing is written) when the trimmed
domain or the trimmed API key is empty; when both are non-empty the settings
are handed to `SetBatch`, the domain among them does not end with `/`, and the
answer is the success one as soon as `SetBatch` reports no error. -/
theorem putSettings_enabled_validation (configService : ConfigService) (rec : Record)
    (body : SettingsBody) (henabled : body.Enabled = true) :
    ((TrimSpace body.Domain = "" ∨ TrimSpace body.APIKey = "") →
      putSettings configService (some rec) (Except.ok body) =
        (Response.apiError 400 "Domain and API Key are required to enable Chevereto.", [])) ∧
    ((TrimSpace body.Domain ≠ "" ∧ TrimSpace body.APIKey ≠ "") →
      ∃ settings domain,
        (putSettings configService (some rec) (Except.ok body)).2
          = [Effect.setBatch rec.Id settings] ∧
        storedString settings "chevereto.domain" = some domain ∧
        endsWith domain '/' = false ∧
        (configService.SetBatch rec.Id settings = none →
          (putSettings configService (some rec) (Except.ok body)).1
            = Response.json 200 [("success", Any.bool true)])) := by
  constructor
  · intro hempty
    have hcond : (body.Enabled &&
        (TrimSpace body.Domain == "" || TrimSpace body.APIKey == "")) = true := by
      rcases hempty with h | h <;> simp [henabled, h]
    unfold putSettings
    simp only [hcond]
    rfl
  · rintro ⟨hd, hk⟩
    have hvalid : (body.Enabled &&
        (TrimSpace body.Domain == "" || TrimSpace body.APIKey == "")) = false := by
      simp [hd, hk]
    obtain ⟨htrace, hresp⟩ := putSettings_run configService rec body hvalid
    exact ⟨settingsMap body, normalizeDomain body.Domain, htrace, rfl,
      TrimRight_slash_not_endsWith _, hresp⟩

/-- C1, at the payload of the end-to-end scenario: `"http://host/"` with key
`"K"` is accepted. -/
theorem putSettings_enabled_validation_witness :
    (({ Enabled := true, Domain := "http://host/", APIKey := "K", AlbumID := "" } :
        SettingsBody).Enabled = true) ∧
    ∃ settings domain,
      (putSettings (storeOf false "" "" "") (some alice)
        (Except.ok { Enabled := true, Domain := "http://host/", APIKey := "K", AlbumID := "" })).2
        = [Effect.setBatch alice.Id settings] ∧
      storedString settings "chevereto.domain" = some domain ∧
      endsWith domain '/' = false ∧
      ((storeOf false "" "" "").SetBatch alice.Id settings = none →
        (putSettings (storeOf false "" "" "") (some alice)
          (Except.ok { Enabled := true, Domain := "http://host/", APIKey := "K", AlbumID := "" })).1
          = Response.json 200 [("success", Any.bool true)]) :=
  ⟨rfl, (putSettings_enabled_validation (storeOf false "" "" "") alice
    { Enabled := true, Domain := "http://host/", APIKey := "K", AlbumID := "" } rfl).2
    ⟨by decide, by decide⟩⟩

/-- C7: the save handler accepts the enabling payload whose domain is `"/"`
and writes a record with `enabled = true` and the empty domain: the check of
line 69 runs on the domain before line 75 strips its slashes. -/
theorem putSettings_slash_domain_stored_empty :
    ∃ settings,
      putSettings (storeOf false "" "" "") (some alice)
          (Except.ok { Enabled := true, Domain := "/", APIKey := "K", AlbumID := "" })
        = (Response.json 200 [("success", Any.bool true)], [Effect.setBatch "u1" settings]) ∧
      storedBool settings "chevereto.enabled" = some true ∧
      storedString settings "chevereto.domain" = some "" ∧
      TrimSpace "" = "" :=
  ⟨settingsMap { Enabled := true, Domain := "/", APIKey := "K", AlbumID := "" },
    rfl, rfl, rfl, by decide⟩

/-- C8, as stated, fails at `"a /"`: the first pass leaves `"a "`, the second
pass trims it to `"a"`. -/
theorem normalizeDomain_not_idempotent :
    normalizeDomain "a /" = "a " ∧ normalizeDomain (normalizeDomain "a /") = "a" ∧
      normalizeDomain (normalizeDomain "a /") ≠ normalizeDomain "a /" := by
  decide

/-- C8, amended: normalising a normalised domain gives the same string exactly
when the normalised domain does not end in white space. -/
theorem normalizeDomain_idempotent_iff (d : String) :
    normalizeDomain (normalizeDomain d) = normalizeDomain d ↔
      endsWithSpace (normalizeDomain d) = false := by
  rw [endsWithSpace_eq_false_iff, String.ext_iff, normalizeDomain_twice_data]
  constructor
  · intro h
    have h1 := List.rdropWhile_prefix (fun c => "/".data.contains c)
      (List.rdropWhile IsSpace (normalizeDomain d).data)
    have h2 := List.rdropWhile_prefix IsSpace (normalizeDomain d).data
    rw [h] at h1
    exact h2.eq_of_length_le h1.length_le
  · intro h
    rw [h, normalizeDomain_data]
    exact List.rdropWhile_idempotent _ _

/-- C9, as stated, fails at the API key `" K "`: the payload is accepted and
the key is written with its blanks, while its trimmed form is `"K"`. -/
theorem putSettings_apiKey_not_trimmed :
    putSettings (storeOf false "" "" "") (some alice)
        (Except.ok { Enabled := true, Domain := "http://host", APIKey := " K ", AlbumID := "" })
      = (Response.json 200 [("success", Any.bool true)],
          [Effect.setBatch "u1"
            [("chevereto.enabled", Any.bool true), ("chevereto.domain", Any.str "http://host"),
             ("chevereto.api_key", Any.str " K "), ("chevereto.album_id", Any.str "")]])
      ∧ TrimSpace " K " = "K" ∧ " K " ≠ TrimSpace " K " := by
  refine ⟨rfl, ?_, ?_⟩ <;> decide

/-- C9, amended: for every payload the save handler accepts, the value written
under `chevereto.api_key` is the API key of the request, unchanged; the
enabled flag and the album id are written unchanged as well, and the domain is
written trimmed and without its trailing slashes. -/
theorem putSettings_stores_apiKey_verbatim (configService : ConfigService) (rec : Record)
    (body : SettingsBody)
    (haccepted : (putSettings configService (some rec) (Except.ok body)).1
      = Response.json 200 [("success", Any.bool true)]) :
    (putSettings configService (some rec) (Except.ok body)).2
      = [Effect.setBatch rec.Id
          [("chevereto.enabled", Any.bool body.Enabled),
           ("chevereto.domain", Any.str (TrimRight (TrimSpace body.Domain) "/")),
           ("chevereto.api_key", Any.str body.APIKey),
           ("chevereto.album_id", Any.str body.AlbumID)]] := by
  have hvalid := putSettings_accepted configService rec body haccepted
  exact (putSettings_run configService rec body hvalid).1

/-- C9, amended, at the API key `" K "` and the album id `" 7 "`. -/
theorem putSettings_stores_apiKey_verbatim_witness :
    (putSettings (storeOf false "" "" "") (some alice)
        (Except.ok
          { Enabled := true, Domain := " http://host/ ", APIKey := " K ", AlbumID := " 7 " })).1
      = Response.json 200 [("success", Any.bool true)] ∧
    (putSettings (storeOf false "" "" "") (some alice)
        (Except.ok
          { Enabled := true, Domain := " http://host/ ", APIKey := " K ", AlbumID := " 7 " })).2
      = [Effect.setBatch "u1"
          [("chevereto.enabled", Any.bool true),
           ("chevereto.domain", Any.str (TrimRight (TrimSpace " http://host/ ") "/")),
           ("chevereto.api_key", Any.str " K "),
           ("chevereto.album_id", Any.str " 7 ")]] :=
  ⟨rfl, putSettings_stores_apiKey_verbatim (storeOf false "" "" "") alice
    { Enabled := true, Domain := " http://host/ ", APIKey := " K ", AlbumID := " 7 " } rfl⟩

/-! ## The connectivity probe -/

/-- C2: in the test handler, once the probe request has been sent, a response
with status 404 gives `success = false` with the endpoint-not-found message,
status 401 or 403 gives `success = false` with the authentication-failed
message, every other status gives `success = true`, and a transport error of
the client gives `success = false` with a connection-failed message. -/
theorem postTest_classification (client : HttpClient) (authRecord : Option Record)
    (bind : Except String TestBody) (req : Request)
    (hsent : sent (postTest client authRecord bind).2 = [req]) :
    (∀ resp, client.Do 10 req = Except.ok resp →
      (resp.StatusCode = 404 →
        (postTest client authRecord bind).1 = Response.json 200
          [("success", Any.bool false),
           ("message", Any.str "Chevereto API endpoint not found. Please check the domain.")]) ∧
      (resp.StatusCode = 401 ∨ resp.StatusCode = 403 →
        (postTest client authRecord bind).1 = Response.json 200
          [("success", Any.bool false),
           ("message", Any.str "Authentication failed. Please check your API key.")]) ∧
      (resp.StatusCode ≠ 404 ∧ resp.StatusCode ≠ 401 ∧ resp.StatusCode ≠ 403 →
        (postTest client authRecord bind).1 = Response.json 200
          [("success", Any.bool true), ("message", Any.str "Connection successful")])) ∧
    (∀ err, client.Do 10 req = Except.error err →
      (postTest client authRecord bind).1 = Response.json 200
        [("success", Any.bool false), ("message", Any.str ("Connection failed: " ++ err))]) := by
  obtain ⟨hok, herr⟩ := postTest_of_sent client authRecord bind req hsent
  refine ⟨fun resp hresp => ?_, fun err h => herr err h⟩
  rw [hok resp hresp]
  refine ⟨fun h => ?_, fun h => ?_, fun h => ?_⟩
  · simp [classifyStatus, h, StatusNotFound, testResult, StatusOK]
  · rcases h with h | h <;>
      simp [classifyStatus, h, StatusNotFound, StatusUnauthorized, StatusForbidden, testResult,
        StatusOK]
  · obtain ⟨h1, h2, h3⟩ := h
    simp [classifyStatus, h1, h2, h3, StatusNotFound, StatusUnauthorized, StatusForbidden,
      testResult, StatusOK]

/-- C2, at a stub answering 405 to the probe of `"http://host/"`. -/
theorem postTest_classification_witness :
    sent (postTest (clientAnswering { StatusCode := 405, Body := Except.ok none }) (some alice)
        (Except.ok { Domain := "http://host/", APIKey := "K" })).2
      = [probeRequest "http://host/api/1/upload" "K"] ∧
    (postTest (clientAnswering { StatusCode := 405, Body := Except.ok none }) (some alice)
        (Except.ok { Domain := "http://host/", APIKey := "K" })).1
      = Response.json 200
          [("success", Any.bool true), ("message", Any.str "Connection successful")] :=
  ⟨rfl, ((postTest_classification
    (clientAnswering { StatusCode := 405, Body := Except.ok none }) (some alice)
    (Except.ok { Domain := "http://host/", APIKey := "K" })
    (probeRequest "http://host/api/1/upload" "K") rfl).1
      { StatusCode := 405, Body := Except.ok none } rfl).2.2 (by decide)⟩

/-! ## The upload relay -/

/-- C3, as stated, fails at status 201: the body carries a non-empty
`image.url`, the relay answers with the generic status failure. -/
theorem postUpload_created_status_rejected :
    (postUpload (storeOf true "http://host" "K" "")
        (clientAnswering { StatusCode := 201, Body := Except.ok (some (Any.obj
          [("image", Any.obj [("url", Any.str "https://img.example.com/x.png")])])) })
        (some alice) formWithFile "b").1
      = Response.apiError 400 "Chevereto returned status 201." := by
  rfl

/-- C3, amended: for every remote response with status exactly 200 whose body
parses as a JSON object containing an object `image` with a non-empty string
`url`, the relay answers with the JSON `url` set to exactly that string; for
every remote response with another status, the other 2xx codes included, the
relay answers with a bad-request failure, whatever the body is. -/
theorem postUpload_success_url (configService : ConfigService) (client : HttpClient)
    (authRecord : Option Record) (formFile : String → Except String UploadedFile)
    (boundary : String) (req : Request) (resp : RemoteResponse)
    (hsent : sent (postUpload configService client authRecord formFile boundary).2 = [req])
    (hresp : client.Do 60 req = Except.ok resp) :
    (resp.StatusCode = 200 →
      ∀ fields image url, resp.Body = Except.ok (some (Any.obj fields)) →
        mapIndex fields "image" = Any.obj image → mapIndex image "url" = Any.str url →
        url ≠ "" →
        (postUpload configService client authRecord formFile boundary).1
          = Response.json 200 [("url", Any.str url)]) ∧
    (resp.StatusCode ≠ 200 →
      ∃ message,
        (postUpload configService client authRecord formFile boundary).1
          = Response.apiError 400 message) := by
  rw [(postUpload_of_sent configService client authRecord formFile boundary req hsent).1
    resp hresp]
  constructor
  · intro hstatus fields image url hbody himage hurl hne
    simp [relayResponse, hbody, hstatus, StatusOK, successResponse, unmarshalMap, himage, hurl,
      asMap, asString, hne]
  · intro hstatus
    have hne : (resp.StatusCode != StatusOK) = true := by
      simpa only [StatusOK, bne_iff_ne] using hstatus
    unfold relayResponse
    cases resp.Body with
    | error e => exact NewBadRequestError_isError _
    | ok doc =>
      simp only [hne, if_true]
      rcases errorResponse_cases resp.StatusCode doc with h | ⟨_, _, _, _, _, _, h⟩ <;>
        rw [h] <;> exact NewBadRequestError_isError _

/-- C3, amended, at the stub of the end-to-end scenario. -/
theorem postUpload_success_url_witness :
    (postUpload (storeOf true "http://host" "K" "")
        (clientAnswering { StatusCode := 200, Body := Except.ok (some (Any.obj
          [("image", Any.obj [("url", Any.str "http://host/i/x.png")])])) })
        (some alice) formWithFile "b").1
      = Response.json 200 [("url", Any.str "http://host/i/x.png")] :=
  (postUpload_success_url (storeOf true "http://host" "K" "")
    (clientAnswering { StatusCode := 200, Body := Except.ok (some (Any.obj
      [("image", Any.obj [("url", Any.str "http://host/i/x.png")])])) })
    (some alice) formWithFile "b"
    (uploadRequest "http://host/api/1/upload" "K" "b"
      (buildParts "x.png" [0, 1, 2, 3, 4, 5, 6, 7, 8, 9] ""))
    { StatusCode := 200, Body := Except.ok (some (Any.obj
      [("image", Any.obj [("url", Any.str "http://host/i/x.png")])])) }
    rfl rfl).1 rfl
    [("image", Any.obj [("url", Any.str "http://host/i/x.png")])]
    [("url", Any.str "http://host/i/x.png")] "http://host/i/x.png"
    rfl rfl rfl (by decide)

/-- C4: in the upload handler, whenever the config service reports
`chevereto.enabled` as false, the answer is the bad-request failure
`"Chevereto is not enabled."`, which contains `"not enabled"`, and the trace is
empty (no request is built or sent), whatever the stored domain, API key and
album id, the inbound form and the client are. -/
theorem postUpload_not_enabled (configService : ConfigService) (client : HttpClient)
    (rec : Record) (formFile : String → Except String UploadedFile) (boundary : String)
    (hdisabled : (configService.GetBool rec.Id "chevereto.enabled").1 = false) :
    ∃ message,
      postUpload configService client (some rec) formFile boundary
        = (Response.apiError 400 message, []) ∧
      Contains message "not enabled" := by
  refine ⟨"Chevereto is not enabled.", ?_, ?_⟩
  · unfold postUpload
    simp only [hdisabled]
    rfl
  · exact ⟨"Chevereto is ".data, ".".data, rfl⟩

/-- C4, at a disabled record without domain and key and a form without file:
the not-enabled failure comes first. -/
theorem postUpload_not_enabled_witness :
    ((storeOf false "" "" "").GetBool alice.Id "chevereto.enabled").1 = false ∧
    ∃ message,
      postUpload (storeOf false "" "" "") clientRefused (some alice) formWithoutFile "b"
        = (Response.apiError 400 message, []) ∧
      Contains message "not enabled" :=
  ⟨rfl, postUpload_not_enabled (storeOf false "" "" "") clientRefused alice formWithoutFile "b"
    rfl⟩

/-- C5, as stated, fails at the error message `"bad file \n"`: the failure
message is `"Chevereto error: bad file."`, which does not carry the string as
it came. -/
theorem postUpload_error_message_normalised :
    (postUpload (storeOf true "http://host" "K" "")
        (clientAnswering { StatusCode := 400, Body := Except.ok (some (Any.obj
          [("error", Any.obj [("message", Any.str "bad file \n")])])) })
        (some alice) formWithFile "b").1
      = Response.apiError 400 "Chevereto error: bad file." ∧
    "Chevereto error: bad file." ≠ "Chevereto error: " ++ "bad file \n" ∧
    ¬ Contains "Chevereto error: bad file." "bad file \n" := by
  refine ⟨rfl, by decide, ?_⟩
  unfold Contains
  decide

/-- C5, amended: in the upload handler, for every remote response with a status
outside 200 to 299: when the body parses as a JSON object whose `error` member
is an object with a string `message`, the failure message is
`"Chevereto error: "` followed by that string, with trailing white space
removed and a `.` appended unless it then ends in `.`, `?` or `!`, and it
contains the string up to its trailing white space; for every other body the
failure message contains the decimal status code; and the answer is never the
success one. -/
theorem postUpload_error_status (configService : ConfigService) (client : HttpClient)
    (authRecord : Option Record) (formFile : String → Except String UploadedFile)
    (boundary : String) (req : Request) (resp : RemoteResponse)
    (hsent : sent (postUpload configService client authRecord formFile boundary).2 = [req])
    (hresp : client.Do 60 req = Except.ok resp)
    (hstatus : resp.StatusCode < 200 ∨ 299 < resp.StatusCode) :
    (∀ fields errObj msg, resp.Body = Except.ok (some (Any.obj fields)) →
      mapIndex fields "error" = Any.obj errObj → mapIndex errObj "message" = Any.str msg →
      ∃ message,
        (postUpload configService client authRecord formFile boundary).1
          = Response.apiError 400 message ∧
        message =
          (if endsWith (TrimRightSpace ("Chevereto error: " ++ msg)) '.'
              || endsWith (TrimRightSpace ("Chevereto error: " ++ msg)) '?'
              || endsWith (TrimRightSpace ("Chevereto error: " ++ msg)) '!'
            then TrimRightSpace ("Chevereto error: " ++ msg)
            else TrimRightSpace ("Chevereto error: " ++ msg) ++ ".") ∧
        Contains message (TrimRightSpace msg)) ∧
    (∀ doc, resp.Body = Except.ok doc →
      (¬ ∃ fields errObj msg, doc = some (Any.obj fields) ∧
        mapIndex fields "error" = Any.obj errObj ∧ mapIndex errObj "message" = Any.str msg) →
      ∃ message,
        (postUpload configService client authRecord formFile boundary).1
          = Response.apiError 400 message ∧
        Contains message (Nat.repr resp.StatusCode)) ∧
    isSuccess (postUpload configService client authRecord formFile boundary).1 = false := by
  rw [(postUpload_of_sent configService client authRecord formFile boundary req hsent).1
    resp hresp]
  have hne : (resp.StatusCode != StatusOK) = true := by
    simp only [StatusOK, bne_iff_ne]
    omega
  refine ⟨fun fields errObj msg hbody he hm => ?_, fun doc hbody hother => ?_, ?_⟩
  · have hrelay : relayResponse resp = NewBadRequestError ("Chevereto error: " ++ msg) := by
      simp [relayResponse, hbody, hne, errorResponse, unmarshalMap, he, hm, asMap, asString]
    have hshape : "Chevereto error: " ++ msg
        = ⟨'C' :: ("hevereto error: ".data ++ msg.data)⟩ := String.ext rfl
    refine ⟨_, ?_, rfl, ?_⟩
    · rw [hrelay, hshape]
      exact NewBadRequestError_capital 'C' _ (by decide) (by decide)
    · have hin : (TrimRightSpace msg).data
          <:+: (TrimRightSpace ("Chevereto error: " ++ msg)).data := by
        have := isInfix_rdropWhile_append IsSpace "Chevereto error: ".data msg.data
        simpa [TrimRightSpace, String.data_append] using this
      unfold Contains
      split
      · exact hin
      · rw [String.data_append]
        exact hin.trans (List.infix_append' [] _ _)
  · rcases errorResponse_cases resp.StatusCode doc with h | ⟨fields, errObj, msg, h1, h2, h3, _⟩
    · have hrelay : relayResponse resp
          = NewBadRequestError ("Chevereto returned status " ++ Nat.repr resp.StatusCode) := by
        simp only [relayResponse, hbody, hne, if_true, h]
      have hshape : "Chevereto returned status " ++ Nat.repr resp.StatusCode
          = ⟨'C' :: ("hevereto returned status ".data ++ (Nat.repr resp.StatusCode).data)⟩ :=
        String.ext rfl
      have hfixed : TrimRightSpace
            ⟨'C' :: ("hevereto returned status ".data ++ (Nat.repr resp.StatusCode).data)⟩
          = ⟨'C' :: ("hevereto returned status ".data ++ (Nat.repr resp.StatusCode).data)⟩ := by
        apply String.ext
        show List.rdropWhile IsSpace _ = _
        rw [rdropWhile_fixed_iff_getLast?]
        intro c hc
        rw [← List.cons_append, List.getLast?_append_of_ne_nil _ (repr_ne_nil _)] at hc
        exact repr_not_space _ c (List.mem_of_getLast?_eq_some hc)
      have hmsg := NewBadRequestError_capital 'C'
        ("hevereto returned status ".data ++ (Nat.repr resp.StatusCode).data)
        (by decide) (by decide)
      rw [hfixed, ← hshape, ← hrelay] at hmsg
      refine ⟨_, hmsg, ?_⟩
      unfold Contains
      split
      · exact ⟨"Chevereto returned status ".data, [], by simp [String.data_append]⟩
      · exact ⟨"Chevereto returned status ".data, ".".data, by simp [String.data_append]⟩
    · exact absurd ⟨fields, errObj, msg, h1, h2, h3⟩ hother
  · unfold relayResponse
    cases hb : resp.Body with
    | error e => rfl
    | ok doc =>
      simp only [hne, if_true]
      rcases errorResponse_cases resp.StatusCode doc with h | ⟨_, _, _, _, _, _, h⟩ <;>
        rw [h] <;> obtain ⟨m, hm⟩ := NewBadRequestError_isError _ <;> rw [hm] <;> rfl

/-- C5, amended, at a stub answering 400 with the error message
`"invalid file"`. -/
theorem postUpload_error_status_witness :
    ∃ message,
      (postUpload (storeOf true "http://host" "K" "")
          (clientAnswering { StatusCode := 400, Body := Except.ok (some (Any.obj
            [("error", Any.obj [("message", Any.str "invalid file")])])) })
          (some alice) formWithFile "b").1
        = Response.apiError 400 message ∧
      message = "Chevereto error: invalid file." ∧
      Contains message "invalid file" := by
  obtain ⟨message, hresp, hmsg, hcontains⟩ :=
    (postUpload_error_status (storeOf true "http://host" "K" "")
      (clientAnswering { StatusCode := 400, Body := Except.ok (some (Any.obj
        [("error", Any.obj [("message", Any.str "invalid file")])])) })
      (some alice) formWithFile "b"
      (uploadRequest "http://host/api/1/upload" "K" "b"
        (buildParts "x.png" [0, 1, 2, 3, 4, 5, 6, 7, 8, 9] ""))
      { StatusCode := 400, Body := Except.ok (some (Any.obj
        [("error", Any.obj [("message", Any.str "invalid file")])])) }
      rfl rfl (Or.inr (by decide))).1
      [("error", Any.obj [("message", Any.str "invalid file")])]
      [("message", Any.str "invalid file")] "invalid file" rfl rfl rfl
  exact ⟨message, hresp, hmsg.trans (by decide), hcontains⟩

/-- C6: in the upload handler, for a response with status 200 whose body parses
as a JSON object: when `image` is absent or not an object the failure is the
"No image data" one; when `image` is an object whose `url` is absent, not a
string or empty, the failure is the "No image URL" one; a body that does not
parse gives the "Failed to parse" failure; the three messages differ. -/
theorem postUpload_missing_image (configService : ConfigService) (client : HttpClient)
    (authRecord : Option Record) (formFile : String → Except String UploadedFile)
    (boundary : String) (req : Request) (resp : RemoteResponse)
    (hsent : sent (postUpload configService client authRecord formFile boundary).2 = [req])
    (hresp : client.Do 60 req = Except.ok resp)
    (hstatus : resp.StatusCode = 200) :
    (∀ fields, resp.Body = Except.ok (some (Any.obj fields)) →
      ((∀ image, mapIndex fields "image" ≠ Any.obj image) →
        (postUpload configService client authRecord formFile boundary).1
          = Response.apiError 400 "No image data in Chevereto response.") ∧
      (∀ image, mapIndex fields "image" = Any.obj image →
        (∀ url, mapIndex image "url" = Any.str url → url = "") →
        (postUpload configService client authRecord formFile boundary).1
          = Response.apiError 400 "No image URL in Chevereto response.")) ∧
    (resp.Body = Except.ok none →
      (postUpload configService client authRecord formFile boundary).1
        = Response.apiError 400 "Failed to parse Chevereto response.") ∧
    "No image data in Chevereto response." ≠ "No image URL in Chevereto response." ∧
    "Failed to parse Chevereto response." ≠ "No image data in Chevereto response." ∧
    "Failed to parse Chevereto response." ≠ "No image URL in Chevereto response." := by
  rw [(postUpload_of_sent configService client authRecord formFile boundary req hsent).1
    resp hresp]
  refine ⟨fun fields hbody => ⟨fun habsent => ?_, fun image himage hurl => ?_⟩,
    fun hbody => ?_, by decide, by decide, by decide⟩
  · have hnone : asMap (mapIndex fields "image") = none := by
      cases hi : mapIndex fields "image" with
      | obj image => exact absurd hi (habsent image)
      | _ => rfl
    have hrelay : relayResponse resp
        = NewBadRequestError "No image data in Chevereto response" := by
      simp [relayResponse, hbody, hstatus, StatusOK, successResponse, unmarshalMap, hnone]
    rw [hrelay]
    rfl
  · have hrelay : relayResponse resp
        = NewBadRequestError "No image URL in Chevereto response" := by
      cases hu : mapIndex image "url" with
      | str url =>
        have := hurl url hu
        subst this
        simp [relayResponse, hbody, hstatus, StatusOK, successResponse, unmarshalMap, himage,
          hu, asMap, asString]
      | _ =>
        simp [relayResponse, hbody, hstatus, StatusOK, successResponse, unmarshalMap, himage,
          hu, asMap, asString]
    rw [hrelay]
    rfl
  · have hrelay : relayResponse resp
        = NewBadRequestError "Failed to parse Chevereto response" := by
      simp [relayResponse, hbody, hstatus, StatusOK, successResponse, unmarshalMap]
    rw [hrelay]
    rfl

/-- C6, at a stub answering 200 with the body `{"image":{}}`: the failure is
the "No image URL" one. -/
theorem postUpload_missing_image_witness :
    (postUpload (storeOf true "http://host" "K" "")
        (clientAnswering { StatusCode := 200, Body := Except.ok (some (Any.obj
          [("image", Any.obj [])])) })
        (some alice) formWithFile "b").1
      = Response.apiError 400 "No image URL in Chevereto response." :=
  ((postUpload_missing_image (storeOf true "http://host" "K" "")
    (clientAnswering { StatusCode := 200, Body := Except.ok (some (Any.obj
      [("image", Any.obj [])])) })
    (some alice) formWithFile "b"
    (uploadRequest "http://host/api/1/upload" "K" "b"
      (buildParts "x.png" [0, 1, 2, 3, 4, 5, 6, 7, 8, 9] ""))
    { StatusCode := 200, Body := Except.ok (some (Any.obj [("image", Any.obj [])])) }
    rfl rfl rfl).1 [("image", Any.obj [])] rfl).2 [] rfl
    (fun url h => by simp [mapIndex] at h)

/-- C10: for every inbound file (bytes `content`, name `file.header.Filename`)
and stored album id that pass the checks of the upload handler, exactly one
request is sent, and its multipart body is the file field `source` with that
name and those bytes, then the text field `album_id` with the album id exactly
when the album id is non-empty, then the text field `title` with the file
name, and nothing else. -/
theorem postUpload_multipart_body (configService : ConfigService) (client : HttpClient)
    (rec : Record) (formFile : String → Except String UploadedFile) (boundary : String)
    (file : UploadedFile) (content : List UInt8)
    (henabled : (configService.GetBool rec.Id "chevereto.enabled").1 = true)
    (hdomain : (configService.GetString rec.Id "chevereto.domain").1 ≠ "")
    (hkey : (configService.GetString rec.Id "chevereto.api_key").1 ≠ "")
    (hfile : formFile "source" = Except.ok file)
    (hread : file.read = Except.ok content)
    (hnew : client.NewRequest "POST"
      ((configService.GetString rec.Id "chevereto.domain").1 ++ "/api/1/upload") = none) :
    ∃ req, sent (postUpload configService client (some rec) formFile boundary).2 = [req] ∧
      ((configService.GetString rec.Id "chevereto.album_id").1 = "" →
        req.Body = [Part.file "source" file.header.Filename content,
          Part.field "title" file.header.Filename]) ∧
      ((configService.GetString rec.Id "chevereto.album_id").1 ≠ "" →
        req.Body = [Part.file "source" file.header.Filename content,
          Part.field "album_id" (configService.GetString rec.Id "chevereto.album_id").1,
          Part.field "title" file.header.Filename]) := by
  refine ⟨uploadRequest
    ((configService.GetString rec.Id "chevereto.domain").1 ++ "/api/1/upload")
    (configService.GetString rec.Id "chevereto.api_key").1 boundary
    (buildParts file.header.Filename content
      (configService.GetString rec.Id "chevereto.album_id").1), ?_, ?_, ?_⟩
  · rw [postUpload_run configService client rec formFile boundary file content henabled hdomain
      hkey hfile hread hnew]
    rfl
  · intro halbum
    simp [uploadRequest, buildParts, halbum]
  · intro halbum
    simp [uploadRequest, buildParts, halbum]

/-- C10, at a ten-byte file `x.png` and the stored album id `"7"`. -/
theorem postUpload_multipart_body_witness :
    ∃ req, sent (postUpload (storeOf true "http://host" "K" "7") clientRefused (some alice)
        formWithFile "b").2 = [req] ∧
      req.Body = [Part.file "source" "x.png" [0, 1, 2, 3, 4, 5, 6, 7, 8, 9],
        Part.field "album_id" "7", Part.field "title" "x.png"] := by
  obtain ⟨req, hsent, _, hbody⟩ := postUpload_multipart_body
    (storeOf true "http://host" "K" "7") clientRefused alice formWithFile "b"
    { header := { Filename := "x.png" }, read := Except.ok [0, 1, 2, 3, 4, 5, 6, 7, 8, 9] }
    [0, 1, 2, 3, 4, 5, 6, 7, 8, 9] rfl (by decide) (by decide) rfl rfl rfl
  exact ⟨req, hsent, hbody (by decide)⟩

end Chevereto
